import Mathlib

/-!
# relval: a shallow embedding of `src/regulator/main.c`

The file embeds the three timespec macros (`tsadd`, `tssub`, `tsmod`), the
option loop of `main` and the rest of `main` as it stands in the source, and
states the properties of the specification over these definitions. The
interval step of the Pacer, which the source does not contain, is taken from
the specification.

Conventions.
* `int64_t`, `time_t` and `long` are 64-bit two's-complement integers. A value
  is an `Int`; every `+`, `-` and `*` of the source is followed by `wrap64`,
  the reduction into the `int64_t` range.
* C's `/` and `%` truncate towards zero: they are `Int.tdiv` and `Int.tmod`.
-/

namespace Relval

/-! ## Machine integers -/

/-- Smallest `int64_t`. -/
def INT64_MIN : Int := -9223372036854775808

/-- Largest `int64_t`. -/
def INT64_MAX : Int := 9223372036854775807

/-- Reduction of an integer into the `int64_t` range (two's complement). -/
def wrap64 (x : Int) : Int :=
  (x + 9223372036854775808) % 18446744073709551616 - 9223372036854775808

/-- Value of a C comparison `x < 0` used as an integer. -/
def ltZero (x : Int) : Int := if x < 0 then 1 else 0

/-! ## `struct timespec` and the three macros -/

/-- The `struct timespec` of `<time.h>` (`tmsp` in the source). -/
structure timespec where
  tv_sec : Int
  tv_nsec : Int
  deriving DecidableEq, Repr

/-- Macro `tsadd(ts,i8)`:
`ts.tv_nsec+=i8%1000000000;`
`ts.tv_sec+=ts.tv_nsec/1000000000+i8/1000000000;`
`ts.tv_nsec%=1000000000`. The result is the value of `ts` afterwards. -/
def tsadd (ts : timespec) (i8 : Int) : timespec :=
  let nsec1 := wrap64 (ts.tv_nsec + Int.tmod i8 1000000000)
  let sec1 := wrap64 (ts.tv_sec
    + wrap64 (Int.tdiv nsec1 1000000000 + Int.tdiv i8 1000000000))
  let nsec2 := Int.tmod nsec1 1000000000
  { tv_sec := sec1, tv_nsec := nsec2 }

/-- Macro `tssub(ts,i8)`:
`ts.tv_nsec-=i8%1000000000;`
`ts.tv_sec-=(ts.tv_nsec<0)+i8/1000000000;`
`ts.tv_nsec+=(ts.tv_nsec<0)*1000000000`. The result is the value of `ts`
afterwards. -/
def tssub (ts : timespec) (i8 : Int) : timespec :=
  let nsec1 := wrap64 (ts.tv_nsec - Int.tmod i8 1000000000)
  let sec1 := wrap64 (ts.tv_sec
    - wrap64 (ltZero nsec1 + Int.tdiv i8 1000000000))
  let nsec2 := wrap64 (nsec1 + wrap64 (ltZero nsec1 * 1000000000))
  { tv_sec := sec1, tv_nsec := nsec2 }

/-- Macro `tsmod(ts,i8)`:
`((((ts.tv_sec%i8)*(1000000000%i8))%i8+(ts.tv_nsec)%i8)%i8)`. -/
def tsmod (ts : timespec) (i8 : Int) : Int :=
  Int.tmod
    (wrap64
      (Int.tmod (wrap64 (Int.tmod ts.tv_sec i8 * Int.tmod 1000000000 i8)) i8
        + Int.tmod ts.tv_nsec i8))
    i8

/-- The time of a timespec in nanoseconds, as an exact integer:
`tv_sec*1e9 + tv_nsec`. -/
def nanos (ts : timespec) : Int := ts.tv_sec * 1000000000 + ts.tv_nsec

/-- A timespec is normalised when `0 <= tv_nsec < 1,000,000,000`. -/
def normalised (ts : timespec) : Prop :=
  0 ≤ ts.tv_nsec ∧ ts.tv_nsec < 1000000000

/-- The value is representable as an `int64_t`. -/
def fits64 (x : Int) : Prop := INT64_MIN ≤ x ∧ x ≤ INT64_MAX

instance (ts : timespec) : Decidable (normalised ts) := by
  unfold normalised; infer_instance

instance (x : Int) : Decidable (fits64 x) := by
  unfold fits64; infer_instance

/-! ## The option loop of `main` -/

/-- The enum `OP_FRM_TSTMP`: the format of the timestamp field. -/
inductive OP_FRM_TSTMP
  | F_CALENDAR_TIME
  | F_UNIX_TIME
  | F_SEC_DESIGNED
  deriving DecidableEq, Repr

/-- The option string `"cezd"` that `main` hands to `getopt`. -/
def optstring : List Char := ['c', 'e', 'z', 'd']

/-- What `getopt` returns for one option character: the character itself when
it occurs in the option string, `'?'` otherwise. -/
def getoptChar (c : Char) : Char := if c ∈ optstring then c else '?'

/-- Library model (glibc `getopt` with the option string `"cezd"`, in which no
option takes an argument): the option characters that successive calls come
across before the call that returns `-1`, for the arguments after `argv[0]`.
An argument `-xyz` holds one option character per character after the dash,
and `--` ends the scan. An argument that is not an option (no leading `-`, or
a lone `-`) ends the scan when `POSIXLY_CORRECT` is set in the environment on
entry; otherwise `getopt` permutes `argv`: it passes over the argument and
goes on with the next one. `main` calls `setenv("POSIXLY_CORRECT","1",1)`
only after the loop, so that call has no part in the scan. -/
def optionChars (posixly_correct : Bool) : List String → List Char
  | [] => []
  | a :: rest =>
    match a.toList with
    | '-' :: c :: cs =>
      if c = '-' ∧ cs = [] then [] else (c :: cs) ++ optionChars posixly_correct rest
    | _ => if posixly_correct then [] else optionChars posixly_correct rest

/-- The `switch (i)` of the option loop. `none` is the `default` arm,
`print_usage_and_exit()`. The arm `case 'd': fdOut = ;` has no right-hand side
in the source and `fdOut` is read nowhere: it leaves `nsCalendar` as it is. -/
def optionCase (i : Char) (nsCalendar : OP_FRM_TSTMP) : Option OP_FRM_TSTMP :=
  if i = 'c' then some OP_FRM_TSTMP.F_CALENDAR_TIME
  else if i = 'e' then some OP_FRM_TSTMP.F_UNIX_TIME
  else if i = 'z' then some OP_FRM_TSTMP.F_SEC_DESIGNED
  else if i = 'd' then some nsCalendar
  else none

/-- How the option loop ends: `getopt` returned `-1` and `nsCalendar` holds the
selected format, or the `default` arm was taken for the option character
`optopt`, with `nsCalendar` as it was then. -/
inductive LoopEnd
  | selected (nsCalendar : OP_FRM_TSTMP)
  | usage (optopt : Char) (nsCalendar : OP_FRM_TSTMP)
  deriving DecidableEq, Repr

/-- The loop `while ((i=getopt(argc, argv, "cezd")) != -1) { switch (i) ... }`
over the option characters that `getopt` comes across: each call returns
`getoptChar c`, and the `switch` runs on that value. -/
def optionLoop : List Char → OP_FRM_TSTMP → LoopEnd
  | [], nsCalendar => LoopEnd.selected nsCalendar
  | c :: rest, nsCalendar =>
    match optionCase (getoptChar c) nsCalendar with
    | none => LoopEnd.usage c nsCalendar
    | some next => optionLoop rest next

/-- The option loop of `main` on an argument vector, from the initial value
`nsCalendar = F_CALENDAR_TIME`. -/
def parseOptions (posixly_correct : Bool) (argv : List String) : LoopEnd :=
  optionLoop (optionChars posixly_correct argv.tail) OP_FRM_TSTMP.F_CALENDAR_TIME

/-! ## `main` -/

/-- What a run does that is visible from outside, in program order.
`stderr_getopt c` is the diagnostic that `getopt` itself writes for the
invalid option character `c` (`opterr` is left at its default). -/
inductive Event
  | clock_gettime
  | stderr_getopt (optopt : Char)
  | stderr_usage
  | stderr_error (szFormat : String)
  | setenv (name value : String)
  | setlocale
  | stdout (text : String)
  deriving DecidableEq, Repr

/-- What the run receives from outside besides `argv`: the outcome of the two
library calls that can fail (`none`: the call returned 0, `some e`: it failed
and set `errno` to `e`), the bytes waiting on the input stream, and whether
`POSIXLY_CORRECT` is set in the environment on entry (it is not, unless said
otherwise). -/
structure Env where
  clock_gettime : Option Int
  setenv : Option Int
  stdin : String
  POSIXLY_CORRECT : Bool := false

/-- The end of a run: the value given to `exit` or returned by `main`, the
events, and the final values of the global `gi8Intv` (the "interval" parameter
in the arguments, initialised to -1) and of the local `nsCalendar`. -/
structure Run where
  status : Int
  events : List Event
  gi8Intv : Int
  nsCalendar : OP_FRM_TSTMP
  deriving DecidableEq, Repr

/-- Initial value of the global `gi8Intv`. -/
def gi8Intv : Int := -1

/-- The function `print_usage_and_exit`: the usage text goes to stderr, then
`exit(1)`. -/
def print_usage_and_exit (events : List Event) (nsCalendar : OP_FRM_TSTMP) : Run :=
  { status := 1, events := events ++ [Event.stderr_usage], gi8Intv := gi8Intv,
    nsCalendar := nsCalendar }

/-- The function `error_exit`: the message goes to stderr, then
`exit(iErrno)`. -/
def error_exit (iErrno : Int) (szFormat : String) (events : List Event)
    (nsCalendar : OP_FRM_TSTMP) : Run :=
  { status := iErrno, events := events ++ [Event.stderr_error szFormat],
    gi8Intv := gi8Intv, nsCalendar := nsCalendar }

/-- The function `main`, statement by statement: `clock_gettime` (into `tsT0`,
whose declaration is commented out in the source and which is read nowhere),
the option loop, the command name (it only feeds the diagnostics and is left out),
`setenv`, `setlocale`, then `printf("Hello, World!\n"); return 0;`. Nothing
in the body reads the operands left in `argv`, assigns `gi8Intv`, reads the
input stream or uses `tsadd`, `tssub` or `tsmod`. The loop over the command
name moves `gpszCmdname` past each `/` of `argv[0]`; for a name without `/`
it changes nothing. -/
def main (env : Env) (argv : List String) : Run :=
  match env.clock_gettime with
  | some e =>
    error_exit e "clock_gettime() at initialize: %s\n" [Event.clock_gettime]
      OP_FRM_TSTMP.F_CALENDAR_TIME
  | none =>
    match parseOptions env.POSIXLY_CORRECT argv with
    | LoopEnd.usage optopt nsCalendar =>
      print_usage_and_exit [Event.clock_gettime, Event.stderr_getopt optopt]
        nsCalendar
    | LoopEnd.selected nsCalendar =>
      match env.setenv with
      | some e =>
        error_exit e "setenv() at initialization: \n"
          [Event.clock_gettime, Event.setenv "POSIXLY_CORRECT" "1"] nsCalendar
      | none =>
        { status := 0,
          events := [Event.clock_gettime, Event.setenv "POSIXLY_CORRECT" "1",
            Event.setlocale, Event.stdout "Hello, World!\n"],
          gi8Intv := gi8Intv, nsCalendar := nsCalendar }

/-- The text of one event on standard output. -/
def Event.stdoutText : Event → String
  | Event.stdout text => text
  | _ => ""

/-- Everything a run wrote to standard output. -/
def Run.stdout (r : Run) : String :=
  String.join (r.events.map Event.stdoutText)

/-! ## Vocabulary of the specification -/

/-- The three format flags of the usage text. -/
inductive Flag
  | c
  | e
  | z
  deriving DecidableEq, Repr

/-- The option character of a flag. -/
def Flag.char : Flag → Char
  | Flag.c => 'c'
  | Flag.e => 'e'
  | Flag.z => 'z'

/-- The command-line argument of a flag: `-c`, `-e` or `-z`. -/
def Flag.arg (f : Flag) : String := String.mk ['-', f.char]

/-- The format a flag stands for: `-c` calendar time, `-e` UNIX epoch time,
`-z` seconds since the command started. -/
def Flag.format : Flag → OP_FRM_TSTMP
  | Flag.c => OP_FRM_TSTMP.F_CALENDAR_TIME
  | Flag.e => OP_FRM_TSTMP.F_UNIX_TIME
  | Flag.z => OP_FRM_TSTMP.F_SEC_DESIGNED

/-- The format the specification selects for a sequence of flags: calendar
time when there is none, otherwise the format of the last one. -/
def selectedFormat (fs : List Flag) : OP_FRM_TSTMP :=
  match fs.getLast? with
  | none => OP_FRM_TSTMP.F_CALENDAR_TIME
  | some f => f.format

/-- An argument that is not an option: it does not begin with `-`, or it is
a lone `-`. -/
def isOperand (a : String) : Bool :=
  match a.toList with
  | '-' :: _ :: _ => false
  | _ => true

/-! ## The interval step of the Pacer

`main.c` holds no pacing step: `main` ends at a placeholder and `tsadd` is
called nowhere. The two definitions below follow section 4.3 of the
specification. An instant is a count of nanoseconds. -/

theorem wrap64_of_fits {x : Int} (h : fits64 x) : wrap64 x = x := by
  unfold fits64 INT64_MIN INT64_MAX at h
  unfold wrap64
  omega

theorem tsadd_eval (ts : timespec) (i8 : Int)
    (hsec : fits64 ts.tv_sec) (hn : normalised ts)
    (hi : 0 ≤ i8 ∧ i8 ≤ INT64_MAX)
    (hfit : (nanos ts + i8) / 1000000000 ≤ INT64_MAX) :
    tsadd ts i8 =
      { tv_sec := (nanos ts + i8) / 1000000000,
        tv_nsec := (nanos ts + i8) % 1000000000 } := by
  obtain ⟨hs1, hs2⟩ := hsec
  obtain ⟨hn1, hn2⟩ := hn
  obtain ⟨hi1, hi2⟩ := hi
  unfold INT64_MIN at hs1
  unfold INT64_MAX at hs2 hi2 hfit
  unfold nanos at hfit ⊢
  have e1 : Int.tmod i8 1000000000 = i8 % 1000000000 :=
    Int.tmod_eq_emod hi1 (by decide)
  have e2 : Int.tdiv i8 1000000000 = i8 / 1000000000 :=
    Int.tdiv_eq_ediv hi1 (by decide)
  have w1 : wrap64 (ts.tv_nsec + i8 % 1000000000)
      = ts.tv_nsec + i8 % 1000000000 := by
    apply wrap64_of_fits; unfold fits64 INT64_MIN INT64_MAX; omega
  have hpos : 0 ≤ ts.tv_nsec + i8 % 1000000000 := by omega
  have e3 : Int.tdiv (ts.tv_nsec + i8 % 1000000000) 1000000000
      = (ts.tv_nsec + i8 % 1000000000) / 1000000000 :=
    Int.tdiv_eq_ediv hpos (by decide)
  have e4 : Int.tmod (ts.tv_nsec + i8 % 1000000000) 1000000000
      = (ts.tv_nsec + i8 % 1000000000) % 1000000000 :=
    Int.tmod_eq_emod hpos (by decide)
  have w2 : wrap64 ((ts.tv_nsec + i8 % 1000000000) / 1000000000
        + i8 / 1000000000)
      = (ts.tv_nsec + i8 % 1000000000) / 1000000000 + i8 / 1000000000 := by
    apply wrap64_of_fits; unfold fits64 INT64_MIN INT64_MAX; omega
  have w3 : wrap64 (ts.tv_sec + ((ts.tv_nsec + i8 % 1000000000) / 1000000000
        + i8 / 1000000000))
      = ts.tv_sec + ((ts.tv_nsec + i8 % 1000000000) / 1000000000
        + i8 / 1000000000) := by
    apply wrap64_of_fits; unfold fits64 INT64_MIN INT64_MAX; omega
  simp only [tsadd, e1, e2, w1, e3, e4, w2, w3]
  congr 1 <;> omega

theorem tssub_eval (ts : timespec) (i8 : Int)
    (hsec : fits64 ts.tv_sec) (hn : normalised ts)
    (hi : 0 ≤ i8 ∧ i8 ≤ INT64_MAX)
    (hfit : INT64_MIN ≤ (nanos ts - i8) / 1000000000) :
    tssub ts i8 =
      { tv_sec := (nanos ts - i8) / 1000000000,
        tv_nsec := (nanos ts - i8) % 1000000000 } := by
  obtain ⟨hs1, hs2⟩ := hsec
  obtain ⟨hn1, hn2⟩ := hn
  obtain ⟨hi1, hi2⟩ := hi
  unfold INT64_MIN at hs1 hfit
  unfold INT64_MAX at hs2 hi2
  unfold nanos at hfit ⊢
  have e1 : Int.tmod i8 1000000000 = i8 % 1000000000 :=
    Int.tmod_eq_emod hi1 (by decide)
  have e2 : Int.tdiv i8 1000000000 = i8 / 1000000000 :=
    Int.tdiv_eq_ediv hi1 (by decide)
  have w1 : wrap64 (ts.tv_nsec - i8 % 1000000000)
      = ts.tv_nsec - i8 % 1000000000 := by
    apply wrap64_of_fits; unfold fits64 INT64_MIN INT64_MAX; omega
  simp only [tssub, e1, e2, w1]
  by_cases hneg : ts.tv_nsec - i8 % 1000000000 < 0
  · have w2 : wrap64 (1 + i8 / 1000000000) = 1 + i8 / 1000000000 := by
      apply wrap64_of_fits; unfold fits64 INT64_MIN INT64_MAX; omega
    have w3 : wrap64 (ts.tv_sec - (1 + i8 / 1000000000))
        = ts.tv_sec - (1 + i8 / 1000000000) := by
      apply wrap64_of_fits; unfold fits64 INT64_MIN INT64_MAX; omega
    have w4 : wrap64 (1 * 1000000000) = 1000000000 := by decide
    have w5 : wrap64 (ts.tv_nsec - i8 % 1000000000 + 1000000000)
        = ts.tv_nsec - i8 % 1000000000 + 1000000000 := by
      apply wrap64_of_fits; unfold fits64 INT64_MIN INT64_MAX; omega
    simp only [ltZero, hneg, if_true, w2, w3, w4, w5]
    congr 1 <;> omega
  · have w2 : wrap64 (0 + i8 / 1000000000) = 0 + i8 / 1000000000 := by
      apply wrap64_of_fits; unfold fits64 INT64_MIN INT64_MAX; omega
    have w3 : wrap64 (ts.tv_sec - (0 + i8 / 1000000000))
        = ts.tv_sec - (0 + i8 / 1000000000) := by
      apply wrap64_of_fits; unfold fits64 INT64_MIN INT64_MAX; omega
    have w4 : wrap64 (0 * 1000000000) = 0 := by decide
    have w5 : wrap64 (ts.tv_nsec - i8 % 1000000000 + 0)
        = ts.tv_nsec - i8 % 1000000000 + 0 := by
      apply wrap64_of_fits; unfold fits64 INT64_MIN INT64_MAX; omega
    simp only [ltZero, hneg, if_false, w2, w3, w4, w5]
    congr 1 <;> omega

theorem tsmod_eval (ts : timespec) (i8 : Int)
    (hsec : 0 ≤ ts.tv_sec) (hn : normalised ts) (hi : 0 < i8)
    (hmul : fits64 (Int.tmod ts.tv_sec i8 * Int.tmod 1000000000 i8))
    (hadd : fits64 (Int.tmod (Int.tmod ts.tv_sec i8 * Int.tmod 1000000000 i8) i8
      + Int.tmod ts.tv_nsec i8)) :
    tsmod ts i8 = nanos ts % i8 := by
  obtain ⟨hn1, _⟩ := hn
  have hi0 : (0 : Int) ≤ i8 := le_of_lt hi
  unfold tsmod
  rw [wrap64_of_fits hmul, wrap64_of_fits hadd]
  have a1 : Int.tmod ts.tv_sec i8 = ts.tv_sec % i8 := Int.tmod_eq_emod hsec hi0
  have a2 : Int.tmod 1000000000 i8 = 1000000000 % i8 :=
    Int.tmod_eq_emod (by decide) hi0
  have a3 : Int.tmod ts.tv_nsec i8 = ts.tv_nsec % i8 := Int.tmod_eq_emod hn1 hi0
  rw [a1, a2, a3]
  have p1 : 0 ≤ ts.tv_sec % i8 * (1000000000 % i8) :=
    Int.mul_nonneg (Int.emod_nonneg _ (ne_of_gt hi)) (Int.emod_nonneg _ (ne_of_gt hi))
  rw [Int.tmod_eq_emod p1 hi0]
  have p2 : 0 ≤ ts.tv_sec % i8 * (1000000000 % i8) % i8 + ts.tv_nsec % i8 :=
    Int.add_nonneg (Int.emod_nonneg _ (ne_of_gt hi)) (Int.emod_nonneg _ (ne_of_gt hi))
  rw [Int.tmod_eq_emod p2 hi0]
  unfold nanos
  rw [← Int.mul_emod, ← Int.add_emod]

/-! ## Lemmas on the option loop -/

theorem optionChars_flags (pc : Bool) (fs : List Flag) (rest : List String) :
    optionChars pc (fs.map Flag.arg ++ rest)
      = fs.map Flag.char ++ optionChars pc rest := by
  induction fs with
  | nil => rfl
  | cons f fs ih =>
    cases f <;> simp [optionChars, Flag.arg, Flag.char, ih]

theorem optionChars_operands (pc : Bool) (operands : List String)
    (hop : ∀ a ∈ operands, isOperand a = true) :
    optionChars pc operands = [] := by
  induction operands with
  | nil => rfl
  | cons a rest ih =>
    have ha : isOperand a = true := hop a (List.mem_cons_self a rest)
    have hrest : ∀ b ∈ rest, isOperand b = true :=
      fun b hb => hop b (List.mem_cons_of_mem a hb)
    unfold isOperand at ha
    unfold optionChars
    split
    · rename_i c cs heq
      rw [heq] at ha
      exact absurd ha (by simp)
    · cases pc with
      | true => rfl
      | false => simpa using ih hrest

theorem optionLoop_flags (fs : List Flag) (init : OP_FRM_TSTMP) :
    optionLoop (fs.map Flag.char) init
      = LoopEnd.selected (match fs.getLast? with
          | none => init
          | some f => f.format) := by
  induction fs generalizing init with
  | nil => rfl
  | cons f fs ih =>
    have step : optionLoop ((f :: fs).map Flag.char) init
        = optionLoop (fs.map Flag.char) f.format := by
      cases f <;> rfl
    rw [step, ih]
    cases fs with
    | nil => rfl
    | cons g gs =>
      rw [List.getLast?_cons_cons]
      cases hlast : (g :: gs).getLast? with
      | none => exact absurd hlast (by simp)
      | some l => rfl

theorem optionCase_unknown (x : Char) (ns : OP_FRM_TSTMP) (hx : x ∉ optstring) :
    optionCase (getoptChar x) ns = none := by
  simp only [getoptChar, if_neg hx]
  rfl

theorem optionCase_none (c : Char) (ns : OP_FRM_TSTMP)
    (h : optionCase (getoptChar c) ns = none) : c ∉ optstring := by
  intro hc
  simp only [getoptChar, if_pos hc] at h
  simp only [optstring, List.mem_cons, List.mem_singleton, List.not_mem_nil,
    or_false] at hc
  rcases hc with e | e | e | e <;> subst e <;> simp [optionCase] at h

theorem optionLoop_unknown (cs : List Char) (init : OP_FRM_TSTMP) (x : Char)
    (hmem : x ∈ cs) (hx : x ∉ optstring) :
    ∃ y ns, y ∉ optstring ∧ optionLoop cs init = LoopEnd.usage y ns := by
  induction cs generalizing init with
  | nil => exact absurd hmem (List.not_mem_nil x)
  | cons c cs ih =>
    unfold optionLoop
    cases hcase : optionCase (getoptChar c) init with
    | none => exact ⟨c, init, optionCase_none c init hcase, rfl⟩
    | some next =>
      have hne : x ≠ c := by
        intro e
        subst e
        rw [optionCase_unknown x init hx] at hcase
        exact absurd hcase (by simp)
      have hmem2 : x ∈ cs := by
        rcases List.mem_cons.mp hmem with e | h
        · exact absurd e hne
        · exact h
      exact ih next hmem2

theorem main_usage (env : Env) (argv : List String) (y : Char)
    (ns : OP_FRM_TSTMP) (hclock : env.clock_gettime = none)
    (hopt : parseOptions env.POSIXLY_CORRECT argv = LoopEnd.usage y ns) :
    main env argv
      = print_usage_and_exit [Event.clock_gettime, Event.stderr_getopt y] ns := by
  simp only [main, hclock, hopt]

theorem main_selected (env : Env) (argv : List String) (ns : OP_FRM_TSTMP)
    (hclock : env.clock_gettime = none)
    (hopt : parseOptions env.POSIXLY_CORRECT argv = LoopEnd.selected ns) :
    (main env argv).nsCalendar = ns
      ∧ Event.stderr_usage ∉ (main env argv).events := by
  simp only [main, hclock, hopt]
  cases env.setenv with
  | none => exact ⟨rfl, by simp⟩
  | some e => exact ⟨rfl, by simp [error_exit]⟩

/-- The run of `main` does not depend on the input stream. -/
theorem main_ignores_stdin (env : Env) (argv : List String) (records : String) :
    main { env with stdin := records } argv = main env argv := rfl

/-! ## Lemmas on the interval step -/

theorem tssub_tsadd (ts : timespec) (i8 : Int)
    (hsec : fits64 ts.tv_sec) (hn : normalised ts)
    (hi : 0 ≤ i8 ∧ i8 ≤ INT64_MAX) :
    tssub (tsadd ts i8) i8 = ts := by
  obtain ⟨hs1, hs2⟩ := hsec
  obtain ⟨hn1, hn2⟩ := hn
  obtain ⟨hi1, hi2⟩ := hi
  unfold INT64_MIN at hs1
  unfold INT64_MAX at hs2 hi2
  have e1 : Int.tmod i8 1000000000 = i8 % 1000000000 :=
    Int.tmod_eq_emod hi1 (by decide)
  have e2 : Int.tdiv i8 1000000000 = i8 / 1000000000 :=
    Int.tdiv_eq_ediv hi1 (by decide)
  have w1 : wrap64 (ts.tv_nsec + i8 % 1000000000)
      = ts.tv_nsec + i8 % 1000000000 := by
    apply wrap64_of_fits; unfold fits64 INT64_MIN INT64_MAX; omega
  have hpos : 0 ≤ ts.tv_nsec + i8 % 1000000000 := by omega
  have e3 : Int.tdiv (ts.tv_nsec + i8 % 1000000000) 1000000000
      = (ts.tv_nsec + i8 % 1000000000) / 1000000000 :=
    Int.tdiv_eq_ediv hpos (by decide)
  have e4 : Int.tmod (ts.tv_nsec + i8 % 1000000000) 1000000000
      = (ts.tv_nsec + i8 % 1000000000) % 1000000000 :=
    Int.tmod_eq_emod hpos (by decide)
  have w2 : wrap64 ((ts.tv_nsec + i8 % 1000000000) % 1000000000
        - i8 % 1000000000)
      = (ts.tv_nsec + i8 % 1000000000) % 1000000000 - i8 % 1000000000 := by
    apply wrap64_of_fits; unfold fits64 INT64_MIN INT64_MAX; omega
  cases ts with
  | mk sec nsec =>
    simp only [tsadd, tssub, e1, e2, w1, e3, e4, w2] at *
    by_cases hneg : (nsec + i8 % 1000000000) % 1000000000 - i8 % 1000000000 < 0
    · simp only [ltZero, hneg, if_true, timespec.mk.injEq]
      unfold wrap64
      constructor <;> omega
    · simp only [ltZero, hneg, if_false, timespec.mk.injEq]
      unfold wrap64
      constructor <;> omega

/-! ## The timespec macros (C7, C8, C9) -/

/-- C7: `tsadd(ts, i8)` computes time + nanoseconds. For a timespec with
`0 <= tv_nsec < 1,000,000,000` and an `int64_t` `i8 >= 0`, when the sum is
representable (no 64-bit overflow), the timespec after the macro is normalised
and `tv_sec*1e9 + tv_nsec` is the old value plus `i8`. -/
theorem tsadd_adds_nanoseconds (ts : timespec) (i8 : Int)
    (hsec : fits64 ts.tv_sec) (hn : normalised ts)
    (hi : 0 ≤ i8 ∧ i8 ≤ INT64_MAX)
    (hfit : (nanos ts + i8) / 1000000000 ≤ INT64_MAX) :
    normalised (tsadd ts i8) ∧ nanos (tsadd ts i8) = nanos ts + i8 := by
  rw [tsadd_eval ts i8 hsec hn hi hfit]
  unfold normalised nanos
  dsimp only
  omega

/-- Witness of C7: 1.24 ms added to an instant 1 ns before a full second. -/
theorem tsadd_adds_nanoseconds_witness :
    normalised (tsadd { tv_sec := 1707436800, tv_nsec := 999999999 } 1240000)
    ∧ nanos (tsadd { tv_sec := 1707436800, tv_nsec := 999999999 } 1240000)
      = nanos { tv_sec := 1707436800, tv_nsec := 999999999 } + 1240000 :=
  tsadd_adds_nanoseconds { tv_sec := 1707436800, tv_nsec := 999999999 } 1240000
    (by decide) (by decide) (by decide) (by decide)

/-- C8 as stated fails at the smallest `tv_sec`: subtracting one second from
`{INT64_MIN, 0}` leaves the `int64_t` range, and the timespec after the macro
does not hold the old time minus `i8`. -/
theorem tssub_underflow_counterexample :
    fits64 INT64_MIN
    ∧ normalised { tv_sec := INT64_MIN, tv_nsec := 0 }
    ∧ (0 : Int) ≤ 1000000000 ∧ (1000000000 : Int) ≤ INT64_MAX
    ∧ tssub { tv_sec := INT64_MIN, tv_nsec := 0 } 1000000000
        = { tv_sec := INT64_MAX, tv_nsec := 0 }
    ∧ nanos (tssub { tv_sec := INT64_MIN, tv_nsec := 0 } 1000000000)
        ≠ nanos { tv_sec := INT64_MIN, tv_nsec := 0 } - 1000000000 := by
  decide

/-- C8, amended: `tssub(ts, i8)` computes time - nanoseconds. For a timespec
with `0 <= tv_nsec < 1,000,000,000` and an `int64_t` `i8 >= 0`, the timespec
after the macro is normalised; when the difference is representable (no 64-bit
overflow), `tv_sec*1e9 + tv_nsec` is the old value minus `i8`; and `tssub`
applied after `tsadd` with the same `i8` restores the original timespec. -/
theorem tssub_subtracts_nanoseconds (ts : timespec) (i8 : Int)
    (hsec : fits64 ts.tv_sec) (hn : normalised ts)
    (hi : 0 ≤ i8 ∧ i8 ≤ INT64_MAX) :
    normalised (tssub ts i8)
    ∧ (INT64_MIN ≤ (nanos ts - i8) / 1000000000 →
        nanos (tssub ts i8) = nanos ts - i8)
    ∧ tssub (tsadd ts i8) i8 = ts := by
  refine ⟨?_, ?_, tssub_tsadd ts i8 hsec hn hi⟩
  · obtain ⟨hn1, hn2⟩ := hn
    obtain ⟨hi1, hi2⟩ := hi
    unfold INT64_MAX at hi2
    have e1 : Int.tmod i8 1000000000 = i8 % 1000000000 :=
      Int.tmod_eq_emod hi1 (by decide)
    have w1 : wrap64 (ts.tv_nsec - i8 % 1000000000)
        = ts.tv_nsec - i8 % 1000000000 := by
      apply wrap64_of_fits; unfold fits64 INT64_MIN INT64_MAX; omega
    unfold normalised
    simp only [tssub, e1, w1]
    by_cases hneg : ts.tv_nsec - i8 % 1000000000 < 0
    · simp only [ltZero, hneg, if_true]
      unfold wrap64
      omega
    · simp only [ltZero, hneg, if_false]
      unfold wrap64
      omega
  · intro hfit
    rw [tssub_eval ts i8 hsec hn hi hfit]
    unfold nanos
    dsimp only
    omega

/-- Witness of C8 (amended): 1.24 ms subtracted from an instant 1 µs after a
full second, with a borrow from `tv_sec`. -/
theorem tssub_subtracts_nanoseconds_witness :
    normalised (tssub { tv_sec := 1707436800, tv_nsec := 1000 } 1240000)
    ∧ nanos (tssub { tv_sec := 1707436800, tv_nsec := 1000 } 1240000)
        = nanos { tv_sec := 1707436800, tv_nsec := 1000 } - 1240000
    ∧ tssub (tsadd { tv_sec := 1707436800, tv_nsec := 1000 } 1240000) 1240000
        = { tv_sec := 1707436800, tv_nsec := 1000 } :=
  have h := tssub_subtracts_nanoseconds
    { tv_sec := 1707436800, tv_nsec := 1000 } 1240000
    (by decide) (by decide) (by decide)
  ⟨h.1, h.2.1 (by decide), h.2.2⟩

/-- C9: `tsmod(ts, i8)` is the remainder of the time by `i8` in nanoseconds.
For a timespec with `tv_sec >= 0` and `0 <= tv_nsec < 1,000,000,000` and
`i8 > 0`, when the arithmetic is exact (the product and the sum inside the
macro stay in the `int64_t` range), `tsmod(ts, i8)` equals
`(tv_sec*1,000,000,000 + tv_nsec) mod i8` and lies in `[0, i8)`. -/
theorem tsmod_is_remainder (ts : timespec) (i8 : Int)
    (hsec : 0 ≤ ts.tv_sec) (hn : normalised ts) (hi : 0 < i8)
    (hmul : fits64 (ts.tv_sec % i8 * (1000000000 % i8)))
    (hadd : fits64 (ts.tv_sec % i8 * (1000000000 % i8) % i8 + ts.tv_nsec % i8)) :
    tsmod ts i8 = nanos ts % i8 ∧ 0 ≤ tsmod ts i8 ∧ tsmod ts i8 < i8 := by
  have hi0 : (0 : Int) ≤ i8 := le_of_lt hi
  have a1 : Int.tmod ts.tv_sec i8 = ts.tv_sec % i8 := Int.tmod_eq_emod hsec hi0
  have a2 : Int.tmod 1000000000 i8 = 1000000000 % i8 :=
    Int.tmod_eq_emod (by decide) hi0
  have a3 : Int.tmod ts.tv_nsec i8 = ts.tv_nsec % i8 :=
    Int.tmod_eq_emod hn.1 hi0
  have p1 : 0 ≤ ts.tv_sec % i8 * (1000000000 % i8) :=
    Int.mul_nonneg (Int.emod_nonneg _ (ne_of_gt hi)) (Int.emod_nonneg _ (ne_of_gt hi))
  have a4 : Int.tmod (ts.tv_sec % i8 * (1000000000 % i8)) i8
      = ts.tv_sec % i8 * (1000000000 % i8) % i8 := Int.tmod_eq_emod p1 hi0
  have heq : tsmod ts i8 = nanos ts % i8 :=
    tsmod_eval ts i8 hsec hn hi (by rw [a1, a2]; exact hmul)
      (by rw [a1, a2, a3, a4]; exact hadd)
  rw [heq]
  exact ⟨rfl, Int.emod_nonneg _ (ne_of_gt hi), Int.emod_lt_of_pos _ hi⟩

/-- Witness of C9: the remainder of 1707436800.5 s by an interval of 1.24 ms
is 0.68 ms. -/
theorem tsmod_is_remainder_witness :
    tsmod { tv_sec := 1707436800, tv_nsec := 500000000 } 1240000
      = nanos { tv_sec := 1707436800, tv_nsec := 500000000 } % 1240000
    ∧ 0 ≤ tsmod { tv_sec := 1707436800, tv_nsec := 500000000 } 1240000
    ∧ tsmod { tv_sec := 1707436800, tv_nsec := 500000000 } 1240000 < 1240000 :=
  tsmod_is_remainder { tv_sec := 1707436800, tv_nsec := 500000000 } 1240000
    (by decide) (by decide) (by decide) (by decide) (by decide)

/-! ## The option loop (C6) -/

/-- C6: for every sequence of flags drawn from `-c`, `-e` and `-z`, the
option loop selects calendar time when there is no flag and otherwise the
format of the last flag: for the flags followed by operands, and for every
argument vector in which the option characters that `getopt` comes across are
those flags (clusters, and flags after operands when `getopt` permutes); `main`
then carries that format and prints no usage. And whenever `getopt` comes
across an option character other than `c`, `e`, `z`, `d`, `main` prints the
usage, after the diagnostic of `getopt`, and exits with status 1. -/
theorem optionLoop_selects_last_flag (env : Env)
    (hclock : env.clock_gettime = none)
    (cmd : String) (fs : List Flag) (operands : List String)
    (hop : ∀ a ∈ operands, isOperand a = true)
    (argv : List String)
    (hflags : optionChars env.POSIXLY_CORRECT argv.tail = fs.map Flag.char)
    (argv2 : List String) (x : Char)
    (hscan : x ∈ optionChars env.POSIXLY_CORRECT argv2.tail)
    (hx : x ∉ optstring) :
    parseOptions env.POSIXLY_CORRECT (cmd :: (fs.map Flag.arg ++ operands))
      = LoopEnd.selected (selectedFormat fs)
    ∧ parseOptions env.POSIXLY_CORRECT argv = LoopEnd.selected (selectedFormat fs)
    ∧ (main env argv).nsCalendar = selectedFormat fs
    ∧ Event.stderr_usage ∉ (main env argv).events
    ∧ ∃ y ns, y ∉ optstring
        ∧ main env argv2
          = { status := 1,
              events := [Event.clock_gettime, Event.stderr_getopt y,
                Event.stderr_usage],
              gi8Intv := -1, nsCalendar := ns } := by
  have h1 : parseOptions env.POSIXLY_CORRECT (cmd :: (fs.map Flag.arg ++ operands))
      = LoopEnd.selected (selectedFormat fs) := by
    unfold parseOptions selectedFormat
    rw [List.tail_cons, optionChars_flags,
      optionChars_operands env.POSIXLY_CORRECT operands hop, List.append_nil,
      optionLoop_flags]
  have h2 : parseOptions env.POSIXLY_CORRECT argv
      = LoopEnd.selected (selectedFormat fs) := by
    unfold parseOptions selectedFormat
    rw [hflags, optionLoop_flags]
  obtain ⟨h3, h4⟩ := main_selected env argv (selectedFormat fs) hclock h2
  obtain ⟨y, ns, hy, hloop⟩ :=
    optionLoop_unknown (optionChars env.POSIXLY_CORRECT argv2.tail)
      OP_FRM_TSTMP.F_CALENDAR_TIME x hscan hx
  refine ⟨h1, h2, h3, h4, y, ns, hy, ?_⟩
  rw [main_usage env argv2 y ns hclock hloop]
  rfl

/-- Witness of C6, with `POSIXLY_CORRECT` not set on entry: `relval -c -e 1s -`
and `relval -c 1s -e` select UNIX epoch time, and `relval 1s -dx` prints the
usage and exits with status 1. -/
theorem optionLoop_selects_last_flag_witness :
    parseOptions false ("relval" :: ([Flag.c, Flag.e].map Flag.arg ++ ["1s", "-"]))
      = LoopEnd.selected (selectedFormat [Flag.c, Flag.e])
    ∧ parseOptions false ["relval", "-c", "1s", "-e"]
      = LoopEnd.selected (selectedFormat [Flag.c, Flag.e])
    ∧ (main { clock_gettime := none, setenv := none, stdin := "" }
        ["relval", "-c", "1s", "-e"]).nsCalendar = selectedFormat [Flag.c, Flag.e]
    ∧ Event.stderr_usage ∉ (main { clock_gettime := none, setenv := none, stdin := "" }
        ["relval", "-c", "1s", "-e"]).events
    ∧ ∃ y ns, y ∉ optstring
        ∧ main { clock_gettime := none, setenv := none, stdin := "" }
            ["relval", "1s", "-dx"]
          = { status := 1,
              events := [Event.clock_gettime, Event.stderr_getopt y,
                Event.stderr_usage],
              gi8Intv := -1, nsCalendar := ns } :=
  optionLoop_selects_last_flag
    { clock_gettime := none, setenv := none, stdin := "" } rfl
    "relval" [Flag.c, Flag.e] ["1s", "-"] (by decide)
    ["relval", "-c", "1s", "-e"] (by decide)
    ["relval", "1s", "-dx"] 'x' (by decide) (by decide)

/-! ## The interval step of the Pacer (C4) -/

/-- C1 on the code: whatever the arguments and the input stream, standard
output receives nothing or the line `Hello, World!`; with the record
`20240209120000 abc` on the input stream and the ratelimit `1` it receives
`Hello, World!`, not the payload `abc`. -/
theorem main_writes_hello_world :
    (∀ (env : Env) (argv : List String),
      (main env argv).stdout = "" ∨ (main env argv).stdout = "Hello, World!\n")
    ∧ (main { clock_gettime := none, setenv := none,
              stdin := "20240209120000 abc\n" } ["relval", "1"]).stdout
      = "Hello, World!\n" := by
  refine ⟨fun env argv => ?_, by decide⟩
  unfold main
  split
  · exact Or.inl rfl
  · split
    · exact Or.inl rfl
    · split
      · exact Or.inl rfl
      · exact Or.inr rfl

/-- C2 on the code: whatever the arguments, the global `gi8Intv`, the interval
parameter of the arguments, ends with its initial value -1; after
`relval 1.24ms` it is -1, not 1,240,000, and the run ends with status 0. -/
theorem main_leaves_interval_unset :
    (∀ (env : Env) (argv : List String), (main env argv).gi8Intv = -1)
    ∧ (main { clock_gettime := none, setenv := none, stdin := "" }
      ["relval", "1.24ms"]).gi8Intv = -1
    ∧ (main { clock_gettime := none, setenv := none, stdin := "" }
      ["relval", "1.24ms"]).status = 0 := by
  refine ⟨fun env argv => ?_, by decide, by decide⟩
  unfold main
  split
  · rfl
  · split
    · rfl
    · split <;> rfl

/-- C3 on the code: the ratelimit `0 / 1s`, whose count is out of range, is
not rejected: the run ends with status 0, writes no error message, and is the
same run as for `10 / 1.5`. -/
theorem main_accepts_count_zero :
    (main { clock_gettime := none, setenv := none, stdin := "" }
      ["relval", "0 / 1s"]).status = 0
    ∧ (main { clock_gettime := none, setenv := none, stdin := "" }
      ["relval", "0 / 1s"]).events
      = [Event.clock_gettime, Event.setenv "POSIXLY_CORRECT" "1",
          Event.setlocale, Event.stdout "Hello, World!\n"]
    ∧ main { clock_gettime := none, setenv := none, stdin := "" }
        ["relval", "0 / 1s"]
      = main { clock_gettime := none, setenv := none, stdin := "" }
        ["relval", "10 / 1.5"] := by
  decide

/-- C5 on the code: without a ratelimit argument, and with the malformed
ratelimit `abc`, `main` returns 0. -/
theorem main_returns_zero_without_ratelimit :
    (main { clock_gettime := none, setenv := none, stdin := "" }
      ["relval"]).status = 0
    ∧ (main { clock_gettime := none, setenv := none, stdin := "" }
      ["relval", "abc"]).status = 0 := by
  decide

end Relval
